import Mathlib

/-! Formal model of `bsky_app_daemon.py`.

A shallow embedding of the Bluesky-to-Ably relay daemon
(`BskyXRPCDaemon`): credential resolution in the constructor,
authentication, the two streaming loops (`stream_posts`,
`stream_notifications`) run concurrently by `run`, and publishing to the
Ably channel.  Raw events are modelled with `Option`-valued fields: a
`none` field stands for an attribute access that raises at runtime.  The
two concurrent loops are modelled by an interleaving step semantics over
an explicit daemon state, scheduled by a list of booleans.
-/

namespace BskyDaemon

/-- A value stored in a published `event_data` dictionary: either a
string, or an opaque record object (the `record` attribute of a
notification is republished as-is). -/
inductive Value where
  | str (s : String)
  | obj (o : String)
  deriving DecidableEq, Repr

/-- A raw post event from `bsky_client.stream.search_posts()`.  Each
field that `stream_posts` reads is an `Option`: `none` models an
attribute access that raises (for example `post.author` being absent, so
that `post.author.did` raises). -/
structure RawPost where
  author_did : Option String
  cid : Option String
  text : Option String
  created_at : Option String
  deriving DecidableEq, Repr

/-- A raw notification event from `bsky_client.stream.notifications()`.
Fields read by `stream_notifications`, `none` modelling a raising
access. -/
structure RawNotif where
  reason : Option String
  author_did : Option String
  record : Option Value
  deriving DecidableEq, Repr

/-- The `event_data` dictionary built inside a streaming loop: an
insertion-ordered association list, as a Python dict literal is. -/
structure EventData where
  pairs : List (String × Value)
  deriving DecidableEq, Repr

instance : Inhabited EventData := ⟨⟨[]⟩⟩

/-- One call to `self.channel.publish(name, event_data)`: the Ably event
name together with the published dictionary. -/
structure SinkMsg where
  name : String
  data : EventData
  deriving DecidableEq, Repr

/-- A log line emitted through `self.logger`. -/
inductive LogEntry where
  | info (msg : String)
  | error (msg : String)
  deriving DecidableEq, Repr

/-- Whether a log entry is an error line. -/
def LogEntry.isError : LogEntry → Bool
  | .error _ => true
  | .info _ => false

/-- Building the `event_data` dictionary of `stream_posts` (lines 59-65
of the source): reads `post.author.did`, `post.cid`, `post.record.text`
and `post.record.created_at`; `none` on any of them models the raised
exception. -/
def reshapePost (p : RawPost) : Option EventData := do
  let did ← p.author_did
  let c ← p.cid
  let t ← p.text
  let ts ← p.created_at
  pure ⟨[("type", .str "post"), ("did", .str did), ("cid", .str c),
         ("text", .str t), ("timestamp", .str ts)]⟩

/-- Building the `event_data` dictionary of `stream_notifications`
(lines 78-83): reads `notification.reason`, `notification.author.did`
and `notification.record`. -/
def reshapeNotif (n : RawNotif) : Option EventData := do
  let r ← n.reason
  let did ← n.author_did
  let rcd ← n.record
  pure ⟨[("type", .str "notification"), ("reason", .str r),
         ("author", .str did), ("record", rcd)]⟩

/-- A raw post all of whose accessed fields are present (reshaping does
not raise). -/
def okPost (p : RawPost) : Bool := (reshapePost p).isSome

/-- A raw notification all of whose accessed fields are present. -/
def okNotif (n : RawNotif) : Bool := (reshapeNotif n).isSome

/-- The sink message published for a well-formed post. -/
def pubOfPost (p : RawPost) : SinkMsg :=
  ⟨"new_post", (reshapePost p).getD default⟩

/-- The sink message published for a well-formed notification. -/
def pubOfNotif (n : RawNotif) : SinkMsg :=
  ⟨"notification", (reshapeNotif n).getD default⟩

/-- The sequential behaviour of the `stream_posts` loop on a finite
prefix of raw events: publish each event in arrival order until the
first malformed one; a malformed event raises, the surrounding
`try`/`except` logs one error and the coroutine returns, so everything
after the first malformed event is discarded.  Returns the published
messages and the log lines, each in order. -/
def streamPostsRun : List RawPost → List SinkMsg × List LogEntry
  | [] => ([], [])
  | p :: rest =>
    match reshapePost p with
    | some ev =>
      let r := streamPostsRun rest
      (⟨"new_post", ev⟩ :: r.1,
       .info ("Published post from " ++ p.author_did.getD "") :: r.2)
    | none => ([], [.error "Error streaming posts"])

/-- The sequential behaviour of the `stream_notifications` loop on a
finite prefix of raw events, mirroring `streamPostsRun`. -/
def streamNotifsRun : List RawNotif → List SinkMsg × List LogEntry
  | [] => ([], [])
  | n :: rest =>
    match reshapeNotif n with
    | some ev =>
      let r := streamNotifsRun rest
      (⟨"notification", ev⟩ :: r.1,
       .info ("Published notification for " ++ n.author_did.getD "") :: r.2)
    | none => ([], [.error "Error streaming notifications"])

/-! ## Interleaving semantics of the two concurrent loops

`run` awaits `asyncio.gather(stream_posts(), stream_notifications())`.
The two coroutines interleave at their suspension points; neither
touches the state of the other, and both publish to the same channel.
A schedule (a list of booleans) picks which coroutine performs its next
step. -/

/-- The daemon state while `asyncio.gather` runs both loops: the
remaining raw events of each stream, whether each coroutine has finished
(its source exhausted, or its `except` branch taken), the messages
published to the Ably channel so far, and the log so far. -/
structure DState where
  posts : List RawPost
  notifs : List RawNotif
  postsDone : Bool
  notifsDone : Bool
  sink : List SinkMsg
  log : List LogEntry
  deriving DecidableEq, Repr

/-- Initial state of `asyncio.gather` with the given finite stream
prefixes. -/
def initState (posts : List RawPost) (notifs : List RawNotif) : DState :=
  ⟨posts, notifs, false, false, [], []⟩

/-- One step of the `stream_posts` coroutine: take the next raw event;
if reshaping succeeds, publish it and log; if it raises, log one error
and finish (the whole loop sits in one `try`/`except`).  An exhausted
source finishes the coroutine normally.  A finished coroutine does
nothing. -/
def stepPosts (s : DState) : DState :=
  if s.postsDone then s
  else
    match s.posts with
    | [] => { s with postsDone := true }
    | p :: rest =>
      match reshapePost p with
      | some ev =>
        { s with
          posts := rest
          sink := s.sink ++ [⟨"new_post", ev⟩]
          log := s.log ++
            [.info ("Published post from " ++ p.author_did.getD "")] }
      | none =>
        { s with
          postsDone := true
          log := s.log ++ [.error "Error streaming posts"] }

/-- One step of the `stream_notifications` coroutine, mirroring
`stepPosts`. -/
def stepNotifs (s : DState) : DState :=
  if s.notifsDone then s
  else
    match s.notifs with
    | [] => { s with notifsDone := true }
    | n :: rest =>
      match reshapeNotif n with
      | some ev =>
        { s with
          notifs := rest
          sink := s.sink ++ [⟨"notification", ev⟩]
          log := s.log ++
            [.info ("Published notification for " ++ n.author_did.getD "")] }
      | none =>
        { s with
          notifsDone := true
          log := s.log ++ [.error "Error streaming notifications"] }

/-- Run the interleaving under a schedule: `true` steps the posts
coroutine, `false` steps the notifications coroutine. -/
def exec (s : DState) : List Bool → DState
  | [] => s
  | b :: sched => exec (if b then stepPosts s else stepNotifs s) sched

/-- The messages of the sink that originate from the posts stream (Ably
event name `new_post`). -/
def postMsgs (sink : List SinkMsg) : List SinkMsg :=
  sink.filter (fun m => m.name == "new_post")

/-- The messages of the sink that originate from the notifications
stream (Ably event name `notification`). -/
def notifMsgs (sink : List SinkMsg) : List SinkMsg :=
  sink.filter (fun m => m.name == "notification")

/-! ## Authentication, `run` and `main` -/

/-- The log of `authenticate` together with the exception it re-raises,
as a function of the outcome of `bsky_client.login`: on success it logs
an info line; on failure it logs the error and re-raises (lines
43-53). -/
def authenticate (loginResult : Except String Unit) :
    List LogEntry × Except String Unit :=
  match loginResult with
  | .ok _ => ([.info "Successfully authenticated with Bluesky"], .ok ())
  | .error e => ([.error ("Authentication failed: " ++ e)], .error e)

/-- The observable outcome of one daemon run: the full log, the messages
published to the Ably channel, and the exception escaping `run` (and
hence `main` and `asyncio.run`), if any. -/
structure RunOutcome where
  log : List LogEntry
  sink : List SinkMsg
  raised : Option String
  deriving DecidableEq, Repr

/-- `run` (lines 92-100): await `authenticate`; if it raises, the
exception propagates and the gather of the two streams never starts; on
success, run both streaming loops under the given schedule. -/
def runDaemon (loginResult : Except String Unit) (posts : List RawPost)
    (notifs : List RawNotif) (sched : List Bool) : RunOutcome :=
  match authenticate loginResult with
  | (alog, .error e) => ⟨alog, [], some e⟩
  | (alog, .ok _) =>
    let s := exec (initState posts notifs) sched
    ⟨alog ++ s.log, s.sink, none⟩

/-- The process exit status of `asyncio.run(main())`: an exception
escaping `main` is unhandled, so the interpreter exits non-zero;
otherwise it exits zero. -/
def exitCode (r : RunOutcome) : Nat :=
  match r.raised with
  | some _ => 1
  | none => 0

/-! ## Credential resolution in the constructor -/

/-- Python `arg or os.getenv(...)` (lines 27-29): a provided non-empty
string argument wins; `None` or the empty string (both falsy) fall back
to the environment variable. -/
def orCred (arg : Option String) (env : Option String) : Option String :=
  match arg with
  | some s => if s = "" then env else some s
  | none => env

/-- The environment variables the constructor reads. -/
structure Env where
  bskyUsername : Option String
  bskyPassword : Option String
  ablyApiKey : Option String
  deriving DecidableEq, Repr

/-- The credentials the constructor stores on `self`. -/
structure Creds where
  bskyUsername : Option String
  bskyPassword : Option String
  ablyApiKey : Option String
  deriving DecidableEq, Repr

/-- `BskyXRPCDaemon.__init__` credential resolution (lines 27-29): each
`self.*` field is the constructor argument if truthy, else the
environment variable. -/
def initDaemon (username password apiKey : Option String) (env : Env) :
    Creds :=
  ⟨orCred username env.bskyUsername,
   orCred password env.bskyPassword,
   orCred apiKey env.ablyApiKey⟩

/-! ## The bounded per-sink queue of the specification

The relay core of the specification is not implemented in the source;
the queue below is modelled from the specification alone. -/

/-- Modelled from the spec: the source has no relay-core queue at all,
so this bounded per-sink queue with the `DropOldest` backpressure policy
follows §4.3 of the specification: a bounded queue of configurable
capacity; when it is full, the oldest queued event is evicted and the
drop counter incremented.  `buf` holds queued events oldest first. -/
structure BoundedQueue (α : Type) where
  cap : Nat
  buf : List α
  dropped : Nat
  deriving DecidableEq, Repr

/-- Modelled from the spec: an empty bounded queue of capacity `cap`. -/
def BoundedQueue.empty (α : Type) (cap : Nat) : BoundedQueue α :=
  ⟨cap, [], 0⟩

/-- Modelled from the spec: enqueue under `DropOldest` — if the queue is
full, evict the oldest queued event and increment the drop counter, then
append the new event. -/
def enqueueDropOldest {α : Type} (q : BoundedQueue α) (x : α) :
    BoundedQueue α :=
  if q.buf.length < q.cap then ⟨q.cap, q.buf ++ [x], q.dropped⟩
  else ⟨q.cap, q.buf.tail ++ [x], q.dropped + 1⟩

/-- Enqueue a whole list of events in order under `DropOldest`. -/
def enqueueAll {α : Type} (q : BoundedQueue α) (xs : List α) :
    BoundedQueue α :=
  xs.foldl enqueueDropOldest q

/-! Concrete sample events for counterexamples and witnesses. -/

/-- Well-formed sample post, sequence 1 of the scenario. -/
def samplePost1 : RawPost := ⟨some "did:1", some "cid1", some "one", some "t1"⟩

/-- Well-formed sample post, sequence 2 of the scenario. -/
def samplePost2 : RawPost := ⟨some "did:2", some "cid2", some "two", some "t2"⟩

/-- Malformed sample post: `post.author` is absent, so reading
`post.author.did` raises during reshaping. -/
def sampleBadPost : RawPost := ⟨none, some "cid3", some "three", some "t3"⟩

/-- Well-formed sample post, sequence 4 of the scenario. -/
def samplePost4 : RawPost := ⟨some "did:4", some "cid4", some "four", some "t4"⟩

/-- The raw post sequence of the scenario of the specification: two good
events, one malformed event, one good event. -/
def scenarioPosts : List RawPost :=
  [samplePost1, samplePost2, sampleBadPost, samplePost4]

/-- A well-formed sample notification. -/
def sampleNotif1 : RawNotif := ⟨some "like", some "did:9", some (.obj "rec1")⟩

/-- A sample environment for witnesses. -/
def sampleEnv : Env := ⟨some "env-user", some "env-pass", some "env-key"⟩

/-! Theorems for the claims. -/

/-- C3: if authentication with the upstream API raises, the error is
logged (`Authentication failed: ...`) and the exception propagates out
of `run` and `main`, so the process exits with a non-zero status; no
events are streamed. -/
theorem c3_auth_failure_fatal (e : String) (posts : List RawPost)
    (notifs : List RawNotif) (sched : List Bool) :
    LogEntry.error ("Authentication failed: " ++ e)
        ∈ (runDaemon (Except.error e) posts notifs sched).log
      ∧ exitCode (runDaemon (Except.error e) posts notifs sched) ≠ 0 := by
  constructor
  · simp [runDaemon, authenticate]
  · simp [runDaemon, authenticate, exitCode]

/-- C9: a non-empty credential passed as a constructor argument takes
precedence over the environment variable; the environment variable is
used exactly when the argument is `None` or the empty string (both falsy
in Python). -/
theorem c9_arg_precedence (env : Env) (s : String)
    (u p k : Option String) :
    (s ≠ "" →
        (initDaemon (some s) p k env).bskyUsername = some s
          ∧ (initDaemon u (some s) k env).bskyPassword = some s
          ∧ (initDaemon u p (some s) env).ablyApiKey = some s)
      ∧ (initDaemon none p k env).bskyUsername = env.bskyUsername
      ∧ (initDaemon (some "") p k env).bskyUsername = env.bskyUsername
      ∧ (initDaemon u none k env).bskyPassword = env.bskyPassword
      ∧ (initDaemon u (some "") k env).bskyPassword = env.bskyPassword
      ∧ (initDaemon u p none env).ablyApiKey = env.ablyApiKey
      ∧ (initDaemon u p (some "") env).ablyApiKey = env.ablyApiKey := by
  refine ⟨fun hs => ?_, ?_, ?_, ?_, ?_, ?_, ?_⟩ <;>
    simp [initDaemon, orCred, *]

/-- Witness for C9 at a concrete non-empty argument and environment. -/
theorem c9_arg_precedence_witness :
    ("alice" : String) ≠ ""
      ∧ (initDaemon (some "alice") none none sampleEnv).bskyUsername
          = some "alice" :=
  ⟨by decide,
   ((c9_arg_precedence sampleEnv "alice" none none none).1 (by decide)).1⟩

/-- C10: no event is published before authentication has completed
successfully: either the login result was a success, or the sink saw no
publish at all; in particular a raising authentication yields zero
publish calls. -/
theorem c10_no_publish_before_auth (lr : Except String Unit)
    (posts : List RawPost) (notifs : List RawNotif) (sched : List Bool) :
    ((runDaemon lr posts notifs sched).sink = []
        ∨ ∃ u, lr = Except.ok u)
      ∧ ∀ e, (runDaemon (Except.error e) posts notifs sched).sink = [] := by
  refine ⟨?_, fun e => rfl⟩
  cases lr with
  | ok u => exact Or.inr ⟨u, rfl⟩
  | error e => exact Or.inl rfl

/-- The publishes of one `stream_posts` run are the well-formed events
strictly before the first malformed one, reshaped, in arrival order. -/
theorem streamPostsRun_fst (evs : List RawPost) :
    (streamPostsRun evs).1 = (evs.takeWhile okPost).map pubOfPost := by
  induction evs with
  | nil => rfl
  | cons p rest ih =>
    cases hp : reshapePost p with
    | some ev =>
      have hok : okPost p = true := by simp [okPost, hp]
      simp [streamPostsRun, hp, hok, pubOfPost, ih]
    | none =>
      have hok : okPost p = false := by simp [okPost, hp]
      simp [streamPostsRun, hp, hok]

/-- The publishes of one `stream_notifications` run, mirroring
`streamPostsRun_fst`. -/
theorem streamNotifsRun_fst (evs : List RawNotif) :
    (streamNotifsRun evs).1 = (evs.takeWhile okNotif).map pubOfNotif := by
  induction evs with
  | nil => rfl
  | cons n rest ih =>
    cases hn : reshapeNotif n with
    | some ev =>
      have hok : okNotif n = true := by simp [okNotif, hn]
      simp [streamNotifsRun, hn, hok, pubOfNotif, ih]
    | none =>
      have hok : okNotif n = false := by simp [okNotif, hn]
      simp [streamNotifsRun, hn, hok]

/-- One `stream_posts` run logs exactly one error line when some event
is malformed, and none otherwise: the single `except` clause fires at
most once per run, however many events are lost. -/
theorem streamPostsRun_errors (evs : List RawPost) :
    ((streamPostsRun evs).2.filter LogEntry.isError).length
      = if evs.all okPost then 0 else 1 := by
  induction evs with
  | nil => rfl
  | cons p rest ih =>
    cases hp : reshapePost p with
    | some ev =>
      have hok : okPost p = true := by simp [okPost, hp]
      simp [streamPostsRun, hp, hok, LogEntry.isError, ih]
    | none =>
      have hok : okPost p = false := by simp [okPost, hp]
      simp [streamPostsRun, hp, hok, LogEntry.isError]

/-- One `stream_notifications` run logs exactly one error line when some
event is malformed, and none otherwise. -/
theorem streamNotifsRun_errors (evs : List RawNotif) :
    ((streamNotifsRun evs).2.filter LogEntry.isError).length
      = if evs.all okNotif then 0 else 1 := by
  induction evs with
  | nil => rfl
  | cons n rest ih =>
    cases hn : reshapeNotif n with
    | some ev =>
      have hok : okNotif n = true := by simp [okNotif, hn]
      simp [streamNotifsRun, hn, hok, LogEntry.isError, ih]
    | none =>
      have hok : okNotif n = false := by simp [okNotif, hn]
      simp [streamNotifsRun, hn, hok, LogEntry.isError]

/-- On well-formed posts, distinct raw events publish distinct sink
messages: the published dictionary determines every accessed field. -/
theorem pubOfPost_inj (p q : RawPost) (hp : okPost p = true)
    (hq : okPost q = true) (h : pubOfPost p = pubOfPost q) : p = q := by
  obtain ⟨a, b, c, d⟩ := p
  obtain ⟨e, f, g, i⟩ := q
  cases a <;> cases b <;> cases c <;> cases d <;>
    cases e <;> cases f <;> cases g <;> cases i <;>
    simp_all [okPost, reshapePost, pubOfPost]

/-- On well-formed notifications, distinct raw events publish distinct
sink messages. -/
theorem pubOfNotif_inj (p q : RawNotif) (hp : okNotif p = true)
    (hq : okNotif q = true) (h : pubOfNotif p = pubOfNotif q) : p = q := by
  obtain ⟨a, b, c⟩ := p
  obtain ⟨e, f, g⟩ := q
  cases a <;> cases b <;> cases c <;>
    cases e <;> cases f <;> cases g <;>
    simp_all [okNotif, reshapeNotif, pubOfNotif]

/-- C1 counterexample: on the scenario posts stream seq 1, seq 2,
malformed, seq 4 (with an empty notifications stream and a schedule long
enough to drain it), the sink receives 2 events, not 3: the malformed
event kills the whole loop, so seq 4 is never published, and the state
has no drop counter at all. -/
theorem c1_counterexample :
    (exec (initState scenarioPosts []) (List.replicate 6 true)).sink
        = [pubOfPost samplePost1, pubOfPost samplePost2]
      ∧ (exec (initState scenarioPosts [])
          (List.replicate 6 true)).sink.length ≠ 3
      ∧ pubOfPost samplePost4
          ∉ (exec (initState scenarioPosts []) (List.replicate 6 true)).sink := by
  refine ⟨rfl, by decide, by decide⟩

/-- C1 amended: a malformed event is not dropped locally — the
`try`/`except` wraps the whole loop, so the stream terminates at the
first malformed event after logging one error; the sink receives exactly
the events preceding the first malformed one, in order, and there is no
drop counter; on the scenario, the sink receives the 2 events seq 1 and
seq 2. -/
theorem c1_amended_loop_dies (pevs : List RawPost) (nevs : List RawNotif) :
    (streamPostsRun pevs).1 = (pevs.takeWhile okPost).map pubOfPost
      ∧ ((streamPostsRun pevs).2.filter LogEntry.isError).length
          = (if pevs.all okPost then 0 else 1)
      ∧ (streamNotifsRun nevs).1 = (nevs.takeWhile okNotif).map pubOfNotif
      ∧ (streamPostsRun scenarioPosts).1
          = [pubOfPost samplePost1, pubOfPost samplePost2] :=
  ⟨streamPostsRun_fst pevs, streamPostsRun_errors pevs,
   streamNotifsRun_fst nevs, rfl⟩

/-- C4 counterexample: on the scenario stream, 4 raw events arrive, 2
are published, so 2 events are lost (the malformed one and the good one
after it), yet only 1 error line is logged and no drop counter exists —
the lost events are not matched one-for-one by any observable
increment. -/
theorem c4_counterexample :
    scenarioPosts.length = 4
      ∧ (streamPostsRun scenarioPosts).1.length = 2
      ∧ ((streamPostsRun scenarioPosts).2.filter LogEntry.isError).length = 1
      ∧ scenarioPosts.length - (streamPostsRun scenarioPosts).1.length
          ≠ ((streamPostsRun scenarioPosts).2.filter LogEntry.isError).length := by
  refine ⟨rfl, rfl, rfl, by decide⟩

/-- C4 amended: every caught exception is logged (a failing stream logs
exactly one error line), but dropped events are not counted — there is
no drop counter, and a single error line covers every event lost when a
stream dies. -/
theorem c4_amended_one_error_line (pevs : List RawPost)
    (nevs : List RawNotif) :
    ((streamPostsRun pevs).2.filter LogEntry.isError).length
        = (if pevs.all okPost then 0 else 1)
      ∧ ((streamNotifsRun nevs).2.filter LogEntry.isError).length
        = (if nevs.all okNotif then 0 else 1)
      ∧ (streamPostsRun pevs).1.length = (pevs.takeWhile okPost).length
      ∧ (streamNotifsRun nevs).1.length = (nevs.takeWhile okNotif).length := by
  refine ⟨streamPostsRun_errors pevs, streamNotifsRun_errors nevs, ?_, ?_⟩
  · rw [streamPostsRun_fst]; simp
  · rw [streamNotifsRun_fst]; simp

/-- C6: each successfully reshaped event is published by exactly one
publish call — the published messages are exactly the reshaped events in
order, one message per event, and runs over duplicate-free raw events
publish duplicate-free messages (no batching, no duplicate publish). -/
theorem c6_one_publish_per_event (pevs : List RawPost)
    (nevs : List RawNotif) :
    (streamPostsRun pevs).1 = (pevs.takeWhile okPost).map pubOfPost
      ∧ (streamPostsRun pevs).1.length = (pevs.takeWhile okPost).length
      ∧ (pevs.Nodup → (streamPostsRun pevs).1.Nodup)
      ∧ (streamNotifsRun nevs).1 = (nevs.takeWhile okNotif).map pubOfNotif
      ∧ (streamNotifsRun nevs).1.length = (nevs.takeWhile okNotif).length
      ∧ (nevs.Nodup → (streamNotifsRun nevs).1.Nodup) := by
  refine ⟨streamPostsRun_fst pevs, ?_, ?_, streamNotifsRun_fst nevs, ?_, ?_⟩
  · rw [streamPostsRun_fst]; simp
  · intro hnd
    rw [streamPostsRun_fst]
    refine List.Nodup.map_on ?_ ?_
    · intro x hx y hy hxy
      exact pubOfPost_inj x y (List.mem_takeWhile_imp hx)
        (List.mem_takeWhile_imp hy) hxy
    · exact hnd.sublist (List.takeWhile_sublist _)
  · rw [streamNotifsRun_fst]; simp
  · intro hnd
    rw [streamNotifsRun_fst]
    refine List.Nodup.map_on ?_ ?_
    · intro x hx y hy hxy
      exact pubOfNotif_inj x y (List.mem_takeWhile_imp hx)
        (List.mem_takeWhile_imp hy) hxy
    · exact hnd.sublist (List.takeWhile_sublist _)

/-- Witness for C6 at a concrete duplicate-free stream. -/
theorem c6_one_publish_per_event_witness :
    ([samplePost1, samplePost2] : List RawPost).Nodup
      ∧ (streamPostsRun [samplePost1, samplePost2]).1.Nodup :=
  ⟨by decide,
   (c6_one_publish_per_event [samplePost1, samplePost2] []).2.2.1 (by decide)⟩

/-- The publishes still to come from the posts coroutine: none once it
has finished, otherwise the sequential rest of its run. -/
def postsPending (s : DState) : List SinkMsg :=
  if s.postsDone then [] else (streamPostsRun s.posts).1

/-- The publishes still to come from the notifications coroutine. -/
def notifsPending (s : DState) : List SinkMsg :=
  if s.notifsDone then [] else (streamNotifsRun s.notifs).1

/-- A singleton post message passes the post filter. -/
theorem postMsgs_single_post (ev : EventData) :
    postMsgs [⟨"new_post", ev⟩] = [⟨"new_post", ev⟩] := rfl

/-- A singleton notification message is not a post message. -/
theorem postMsgs_single_notif (ev : EventData) :
    postMsgs [⟨"notification", ev⟩] = [] := rfl

/-- A singleton post message is not a notification message. -/
theorem notifMsgs_single_post (ev : EventData) :
    notifMsgs [⟨"new_post", ev⟩] = [] := rfl

/-- A singleton notification message passes the notification filter. -/
theorem notifMsgs_single_notif (ev : EventData) :
    notifMsgs [⟨"notification", ev⟩] = [⟨"notification", ev⟩] := rfl

/-- A posts step keeps the already-published post messages plus the
pending ones invariant. -/
theorem stepPosts_inv (s : DState) :
    postMsgs (stepPosts s).sink ++ postsPending (stepPosts s)
      = postMsgs s.sink ++ postsPending s := by
  obtain ⟨ps, ns, pd, nd, sk, lg⟩ := s
  cases pd
  · cases ps with
    | nil => simp [stepPosts, postsPending, streamPostsRun]
    | cons p rest =>
      cases hr : reshapePost p with
      | some ev =>
        simp [stepPosts, postsPending, streamPostsRun, hr, postMsgs,
          List.filter_append]
      | none =>
        simp [stepPosts, postsPending, streamPostsRun, hr]
  · simp [stepPosts, postsPending]

/-- A notifications step keeps the already-published notification
messages plus the pending ones invariant. -/
theorem stepNotifs_inv (s : DState) :
    notifMsgs (stepNotifs s).sink ++ notifsPending (stepNotifs s)
      = notifMsgs s.sink ++ notifsPending s := by
  obtain ⟨ps, ns, pd, nd, sk, lg⟩ := s
  cases nd
  · cases ns with
    | nil => simp [stepNotifs, notifsPending, streamNotifsRun]
    | cons n rest =>
      cases hr : reshapeNotif n with
      | some ev =>
        simp [stepNotifs, notifsPending, streamNotifsRun, hr, notifMsgs,
          List.filter_append]
      | none =>
        simp [stepNotifs, notifsPending, streamNotifsRun, hr]
  · simp [stepNotifs, notifsPending]

/-- A notifications step does not touch the posts side: remaining posts,
the done flag and the post messages of the sink are unchanged. -/
theorem stepNotifs_posts_frame (s : DState) :
    (stepNotifs s).posts = s.posts
      ∧ (stepNotifs s).postsDone = s.postsDone
      ∧ postMsgs (stepNotifs s).sink = postMsgs s.sink := by
  obtain ⟨ps, ns, pd, nd, sk, lg⟩ := s
  cases nd
  · cases ns with
    | nil => simp [stepNotifs]
    | cons n rest =>
      cases hr : reshapeNotif n with
      | some ev =>
        simp [stepNotifs, hr, postMsgs, List.filter_append]
      | none => simp [stepNotifs, hr]
  · simp [stepNotifs]

/-- A posts step does not touch the notifications side. -/
theorem stepPosts_notifs_frame (s : DState) :
    (stepPosts s).notifs = s.notifs
      ∧ (stepPosts s).notifsDone = s.notifsDone
      ∧ notifMsgs (stepPosts s).sink = notifMsgs s.sink := by
  obtain ⟨ps, ns, pd, nd, sk, lg⟩ := s
  cases pd
  · cases ps with
    | nil => simp [stepPosts]
    | cons p rest =>
      cases hr : reshapePost p with
      | some ev =>
        simp [stepPosts, hr, notifMsgs, List.filter_append]
      | none => simp [stepPosts, hr]
  · simp [stepPosts]

/-- Running any schedule keeps published-plus-pending post messages
invariant. -/
theorem exec_posts_inv (sched : List Bool) (s : DState) :
    postMsgs (exec s sched).sink ++ postsPending (exec s sched)
      = postMsgs s.sink ++ postsPending s := by
  induction sched generalizing s with
  | nil => rfl
  | cons b rest ih =>
    cases b
    · have hstep : exec s (false :: rest) = exec (stepNotifs s) rest := rfl
      rw [hstep, ih]
      obtain ⟨h1, h2, h3⟩ := stepNotifs_posts_frame s
      simp [postsPending, h1, h2, h3]
    · have hstep : exec s (true :: rest) = exec (stepPosts s) rest := rfl
      rw [hstep, ih, stepPosts_inv]

/-- Running any schedule keeps published-plus-pending notification
messages invariant. -/
theorem exec_notifs_inv (sched : List Bool) (s : DState) :
    notifMsgs (exec s sched).sink ++ notifsPending (exec s sched)
      = notifMsgs s.sink ++ notifsPending s := by
  induction sched generalizing s with
  | nil => rfl
  | cons b rest ih =>
    cases b
    · have hstep : exec s (false :: rest) = exec (stepNotifs s) rest := rfl
      rw [hstep, ih, stepNotifs_inv]
    · have hstep : exec s (true :: rest) = exec (stepPosts s) rest := rfl
      rw [hstep, ih]
      obtain ⟨h1, h2, h3⟩ := stepPosts_notifs_frame s
      simp [notifsPending, h1, h2, h3]

/-- C2: per-connector FIFO is preserved end-to-end — under every
interleaving schedule, the post messages in the sink are an initial
segment of the reshaped posts in arrival order, and likewise for
notification messages; within each stream no reordering is possible. -/
theorem c2_fifo_per_connector (posts : List RawPost)
    (notifs : List RawNotif) (sched : List Bool) :
    (∃ r, postMsgs (exec (initState posts notifs) sched).sink ++ r
        = (posts.takeWhile okPost).map pubOfPost)
      ∧ ∃ r, notifMsgs (exec (initState posts notifs) sched).sink ++ r
        = (notifs.takeWhile okNotif).map pubOfNotif := by
  constructor
  · refine ⟨postsPending (exec (initState posts notifs) sched), ?_⟩
    rw [exec_posts_inv]
    simp [initState, postsPending, postMsgs, streamPostsRun_fst]
  · refine ⟨notifsPending (exec (initState posts notifs) sched), ?_⟩
    rw [exec_notifs_inv]
    simp [initState, notifsPending, notifMsgs, streamNotifsRun_fst]

/-- Two notification steps from states agreeing on the notifications
side end in states agreeing on the notifications side. -/
theorem stepNotifs_congr (s t : DState) (h1 : s.notifs = t.notifs)
    (h2 : s.notifsDone = t.notifsDone)
    (h3 : notifMsgs s.sink = notifMsgs t.sink) :
    (stepNotifs s).notifs = (stepNotifs t).notifs
      ∧ (stepNotifs s).notifsDone = (stepNotifs t).notifsDone
      ∧ notifMsgs (stepNotifs s).sink = notifMsgs (stepNotifs t).sink := by
  obtain ⟨ps, ns, pd, nd, sk, lg⟩ := s
  obtain ⟨pt, nt, pd2, nd2, sk2, lg2⟩ := t
  replace h1 : ns = nt := h1
  replace h2 : nd = nd2 := h2
  replace h3 : notifMsgs sk = notifMsgs sk2 := h3
  subst h1
  subst h2
  cases nd
  · cases ns with
    | nil => simp [stepNotifs, h3]
    | cons n rest =>
      cases hr : reshapeNotif n with
      | some ev =>
        simp [stepNotifs, hr, notifMsgs, List.filter_append]
        simpa [notifMsgs] using h3
      | none => simp [stepNotifs, hr, h3]
  · simp [stepNotifs, h3]

/-- C5: an interruption of the posts stream affects only that stream —
for every notifications input and every schedule, changing the posts
input (for example to one containing a malformed event that kills the
posts loop) leaves the notifications coroutine state (remaining events
and done flag) and its published messages exactly unchanged. -/
theorem c5_interruption_isolated (posts posts2 : List RawPost)
    (notifs : List RawNotif) (sched : List Bool) :
    (exec (initState posts notifs) sched).notifs
        = (exec (initState posts2 notifs) sched).notifs
      ∧ (exec (initState posts notifs) sched).notifsDone
        = (exec (initState posts2 notifs) sched).notifsDone
      ∧ notifMsgs (exec (initState posts notifs) sched).sink
        = notifMsgs (exec (initState posts2 notifs) sched).sink := by
  suffices h : ∀ (sch : List Bool) (s t : DState),
      s.notifs = t.notifs → s.notifsDone = t.notifsDone →
      notifMsgs s.sink = notifMsgs t.sink →
      (exec s sch).notifs = (exec t sch).notifs
        ∧ (exec s sch).notifsDone = (exec t sch).notifsDone
        ∧ notifMsgs (exec s sch).sink = notifMsgs (exec t sch).sink by
    exact h sched (initState posts notifs) (initState posts2 notifs)
      rfl rfl rfl
  intro sch
  induction sch with
  | nil => exact fun s t h1 h2 h3 => ⟨h1, h2, h3⟩
  | cons b rest ih =>
    intro s t h1 h2 h3
    cases b
    · have hs : exec s (false :: rest) = exec (stepNotifs s) rest := rfl
      have ht : exec t (false :: rest) = exec (stepNotifs t) rest := rfl
      rw [hs, ht]
      obtain ⟨g1, g2, g3⟩ := stepNotifs_congr s t h1 h2 h3
      exact ih (stepNotifs s) (stepNotifs t) g1 g2 g3
    · have hs : exec s (true :: rest) = exec (stepPosts s) rest := rfl
      have ht : exec t (true :: rest) = exec (stepPosts t) rest := rfl
      rw [hs, ht]
      obtain ⟨a1, a2, a3⟩ := stepPosts_notifs_frame s
      obtain ⟨b1, b2, b3⟩ := stepPosts_notifs_frame t
      exact ih (stepPosts s) (stepPosts t) (a1.trans (h1.trans b1.symm))
        (a2.trans (h2.trans b2.symm)) (a3.trans (h3.trans b3.symm))

/-- C7 counterexample: the records handed to the sink do not have the
canonical shape with keys kind, actorId, subjectId, payload, observedAt;
the post path emits keys type, did, cid, text, timestamp, the
notification path emits keys type, reason, author, record, and the two
key sets differ from the canonical shape and from each other (the
notification record carries no timestamp at all). -/
theorem c7_counterexample :
    ((reshapePost samplePost1).getD default).pairs.map Prod.fst
        = ["type", "did", "cid", "text", "timestamp"]
      ∧ ((reshapeNotif sampleNotif1).getD default).pairs.map Prod.fst
        = ["type", "reason", "author", "record"]
      ∧ ["type", "did", "cid", "text", "timestamp"]
        ≠ ["kind", "actorId", "subjectId", "payload", "observedAt"]
      ∧ ["type", "reason", "author", "record"]
        ≠ ["kind", "actorId", "subjectId", "payload", "observedAt"]
      ∧ ["type", "did", "cid", "text", "timestamp"]
        ≠ ["type", "reason", "author", "record"] := by
  refine ⟨rfl, rfl, ?_, ?_, ?_⟩ <;> decide

/-- C7 amended: every well-formed post is reshaped to a record with the
keys type, did, cid, text, timestamp, and every well-formed notification
to a record with the keys type, reason, author, record; the two paths
produce two different shapes and neither is the canonical
kind/actorId/subjectId/payload/observedAt shape. -/
theorem c7_amended_shapes (a b c d r au : String) (v : Value) :
    (reshapePost ⟨some a, some b, some c, some d⟩).map
        (fun ev => ev.pairs.map Prod.fst)
        = some ["type", "did", "cid", "text", "timestamp"]
      ∧ (reshapeNotif ⟨some r, some au, some v⟩).map
        (fun ev => ev.pairs.map Prod.fst)
        = some ["type", "reason", "author", "record"] := by
  constructor <;> rfl

/-- C8 counterexample: modelled from the spec, with capacity K = 2 and
M = 1 extra events, after enqueuing K + M = 3 events under `DropOldest`
the queue holds the 2 most-recent events, not the M = 1 most-recent the
claim states, and the drop counter is M = 1, not K = 2. -/
theorem c8_counterexample :
    (enqueueAll (BoundedQueue.empty Nat 2) [1, 2, 3]).buf = [2, 3]
      ∧ (enqueueAll (BoundedQueue.empty Nat 2) [1, 2, 3]).buf.length ≠ 1
      ∧ (enqueueAll (BoundedQueue.empty Nat 2) [1, 2, 3]).dropped = 1
      ∧ (enqueueAll (BoundedQueue.empty Nat 2) [1, 2, 3]).dropped ≠ 2 := by
  refine ⟨rfl, ?_, rfl, ?_⟩ <;> decide

/-- Invariant of `DropOldest` enqueuing: starting from a queue whose
buffer fits its positive capacity, after enqueuing `xs` the buffer is
the suffix of the old buffer followed by `xs` that fits the capacity,
and the drop counter grows by the number of evicted events. -/
theorem enqueueAll_spec {α : Type} (xs : List α) (q : BoundedQueue α)
    (hc : 0 < q.cap) (hlen : q.buf.length ≤ q.cap) :
    (enqueueAll q xs).buf
        = (q.buf ++ xs).drop (q.buf.length + xs.length - q.cap)
      ∧ (enqueueAll q xs).dropped
        = q.dropped + (q.buf.length + xs.length - q.cap)
      ∧ (enqueueAll q xs).cap = q.cap := by
  induction xs generalizing q with
  | nil =>
    have h0 : q.buf.length - q.cap = 0 := by omega
    simp [enqueueAll, h0]
  | cons x rest ih =>
    by_cases hfull : q.buf.length < q.cap
    · have hstep : enqueueAll q (x :: rest)
          = enqueueAll ⟨q.cap, q.buf ++ [x], q.dropped⟩ rest := by
        simp [enqueueAll, enqueueDropOldest, hfull]
      have ih2 := ih ⟨q.cap, q.buf ++ [x], q.dropped⟩ hc
        (by simpa using hfull)
      obtain ⟨ib, id2, ic⟩ := ih2
      refine ⟨?_, ?_, ?_⟩
      · rw [hstep, ib]
        have harith : (q.buf ++ [x]).length + rest.length - q.cap
            = q.buf.length + (x :: rest).length - q.cap := by
          simp; omega
        rw [harith]
        simp
      · rw [hstep, id2]
        have harith : (q.buf ++ [x]).length + rest.length - q.cap
            = q.buf.length + (x :: rest).length - q.cap := by
          simp; omega
        rw [harith]
      · rw [hstep, ic]
    · have heq : q.buf.length = q.cap := by omega
      obtain ⟨h, t, hht⟩ : ∃ h t, q.buf = h :: t := by
        cases hb : q.buf with
        | nil => rw [hb] at heq; simp at heq; omega
        | cons h t => exact ⟨h, t, rfl⟩
      have hstep : enqueueAll q (x :: rest)
          = enqueueAll ⟨q.cap, q.buf.tail ++ [x], q.dropped + 1⟩ rest := by
        simp [enqueueAll, enqueueDropOldest, hfull]
      have hlen2 : q.buf.length = t.length + 1 := by rw [hht]; simp
      have htlen : (q.buf.tail ++ [x]).length = q.cap := by
        rw [hht]; simp; omega
      have ih2 := ih ⟨q.cap, q.buf.tail ++ [x], q.dropped + 1⟩ hc
        (le_of_eq htlen)
      obtain ⟨ib, id2, ic⟩ := ih2
      refine ⟨?_, ?_, ?_⟩
      · rw [hstep, ib]
        simp only [htlen]
        have harith : q.cap + rest.length - q.cap = rest.length := by omega
        rw [harith]
        have harith2 : q.buf.length + (x :: rest).length - q.cap
            = rest.length + 1 := by simp; omega
        rw [harith2, hht]
        simp [List.drop_succ_cons]
      · rw [hstep, id2]
        simp only [htlen]
        have harith : q.cap + rest.length - q.cap = rest.length := by omega
        have harith2 : q.buf.length + (x :: rest).length - q.cap
            = rest.length + 1 := by simp; omega
        rw [harith, harith2]
        omega
      · rw [hstep, ic]

/-- C8 amended: modelled from the spec, under `DropOldest` with positive
capacity K, after enqueuing K + M events with no dequeue the queue
contains exactly the K most-recent events (the M oldest having been
evicted) and the drop counter equals M. -/
theorem c8_amended_drop_oldest {α : Type} (K M : Nat) (xs : List α)
    (hK : 0 < K) (hlen : xs.length = K + M) :
    (enqueueAll (BoundedQueue.empty α K) xs).buf = xs.drop M
      ∧ (enqueueAll (BoundedQueue.empty α K) xs).buf.length = K
      ∧ (enqueueAll (BoundedQueue.empty α K) xs).dropped = M := by
  obtain ⟨hb, hd, -⟩ := enqueueAll_spec xs (BoundedQueue.empty α K) hK
    (by simp [BoundedQueue.empty])
  simp only [BoundedQueue.empty] at hb hd ⊢
  simp at hb hd
  have hM : xs.length - K = M := by omega
  rw [hM] at hb hd
  refine ⟨hb, ?_, hd⟩
  rw [hb]
  simp
  omega

/-- Witness for C8 amended at K = 2, M = 1, events 1, 2, 3. -/
theorem c8_amended_drop_oldest_witness :
    0 < 2 ∧ ([1, 2, 3] : List Nat).length = 2 + 1
      ∧ ((enqueueAll (BoundedQueue.empty Nat 2) [1, 2, 3]).buf
            = ([1, 2, 3] : List Nat).drop 1
          ∧ (enqueueAll (BoundedQueue.empty Nat 2) [1, 2, 3]).buf.length = 2
          ∧ (enqueueAll (BoundedQueue.empty Nat 2) [1, 2, 3]).dropped = 1) :=
  ⟨by decide, by decide,
   c8_amended_drop_oldest 2 1 [1, 2, 3] (by decide) (by decide)⟩

end BskyDaemon
